import Mathlib

/-!
Shallow embedding of the mcp-hub core (orchestrator, dynamic tool router,
multitenant manager) and proofs about its specified behaviour.

Python dicts are modelled as insertion-ordered association lists
(`PyDict.set` updates in place or appends, `PyDict.get` looks up the key,
iteration order is list order), matching CPython dict semantics.
External effects (connecting a stdio client, listing a worker's tools,
forwarding a tool call, disconnecting) are modelled as outcome parameters.
-/

namespace PyDict

def get {α : Type} : List (String × α) → String → Option α
  | [], _ => none
  | (k', v) :: rest, k => if k' = k then some v else get rest k

def set {α : Type} : List (String × α) → String → α → List (String × α)
  | [], k, v => [(k, v)]
  | (k', v') :: rest, k, v =>
      if k' = k then (k', v) :: rest else (k', v') :: set rest k v

def erase {α : Type} : List (String × α) → String → List (String × α)
  | [], _ => []
  | (k', v') :: rest, k => if k' = k then rest else (k', v') :: erase rest k

def values {α : Type} (d : List (String × α)) : List α :=
  d.map Prod.snd

def keys {α : Type} (d : List (String × α)) : List String :=
  d.map Prod.fst

theorem get_set_self {α : Type} (d : List (String × α)) (k : String) (v : α) :
    get (set d k v) k = some v := by
  induction d with
  | nil => simp [get, set]
  | cons p rest ih =>
    obtain ⟨k', v'⟩ := p
    by_cases h : k' = k
    · simp [get, set, h]
    · simp [get, set, h, ih]

theorem get_set_ne {α : Type} (d : List (String × α)) (k k' : String) (v : α)
    (h : k' ≠ k) : get (set d k v) k' = get d k' := by
  induction d with
  | nil => simp [get, set, Ne.symm h]
  | cons p rest ih =>
    obtain ⟨k₀, v₀⟩ := p
    by_cases h0 : k₀ = k
    · subst h0
      simp [get, set, Ne.symm h]
    · simp only [set, if_neg h0]
      by_cases h1 : k₀ = k'
      · simp [get, h1]
      · simp [get, h1, ih]

theorem mem_values_of_get {α : Type} {d : List (String × α)} {k : String} {v : α}
    (h : get d k = some v) : v ∈ values d := by
  induction d with
  | nil => simp [get] at h
  | cons p rest ih =>
    obtain ⟨k', v'⟩ := p
    by_cases hk : k' = k
    · simp [get, hk] at h
      simp [values, h]
    · simp [get, hk] at h
      simp [values] at ih ⊢
      right
      simpa [values] using ih h

theorem get_mem_keys {α : Type} {d : List (String × α)} {k : String} {v : α}
    (h : get d k = some v) : k ∈ keys d := by
  induction d with
  | nil => simp [get] at h
  | cons p rest ih =>
    obtain ⟨k', v'⟩ := p
    by_cases hk : k' = k
    · simp [keys, hk]
    · simp [get, hk] at h
      simp [keys] at ih ⊢
      right
      simpa [keys] using ih h

theorem get_of_mem_keys {α : Type} {d : List (String × α)} {k : String}
    (h : k ∈ keys d) : ∃ v, get d k = some v := by
  induction d with
  | nil => simp [keys] at h
  | cons p rest ih =>
    obtain ⟨k', v'⟩ := p
    by_cases hk : k' = k
    · exact ⟨v', by simp [get, hk]⟩
    · simp [keys, hk] at h
      rcases h with h | h
      · exact absurd h.symm hk
      · obtain ⟨v, hv⟩ := ih (by simpa [keys] using h)
        exact ⟨v, by simp [get, hk, hv]⟩

theorem keys_set_subset {α : Type} (d : List (String × α)) (k : String) (v : α) :
    ∀ k', k' ∈ keys (set d k v) → k' = k ∨ k' ∈ keys d := by
  induction d with
  | nil => intro k' h; simp [set, keys] at h; exact Or.inl h
  | cons p rest ih =>
    obtain ⟨k₀, v₀⟩ := p
    intro k' h
    by_cases h0 : k₀ = k
    · simp [set, h0, keys] at h
      rcases h with h | h
      · exact Or.inl h
      · exact Or.inr (by simp [keys, h])
    · simp only [set, if_neg h0, keys, List.map_cons, List.mem_cons] at h
      rcases h with h | h
      · exact Or.inr (by simp [keys, h])
      · rcases ih k' (by simpa [keys] using h) with h' | h'
        · exact Or.inl h'
        · exact Or.inr (by simp [keys]; exact Or.inr (by simpa [keys] using h'))

end PyDict

/-! Server ids: the composite id is `tenant_id ++ ":" ++ server_name`;
`_parse_server_id` splits at the first colon and raises `ValueError`
(modelled as `none`) when no colon is present. -/

def splitFirstColon : List Char → Option (List Char × List Char)
  | [] => none
  | c :: cs =>
      if c = ':' then some ([], cs)
      else match splitFirstColon cs with
        | some (a, b) => some (c :: a, b)
        | none => none

def parse_server_id (s : String) : Option (String × String) :=
  match splitFirstColon s.data with
  | some (a, b) => some (⟨a⟩, ⟨b⟩)
  | none => none

def mk_server_id (tenant_id server_name : String) : String :=
  tenant_id ++ ":" ++ server_name

def noColon (s : String) : Prop := ':' ∉ s.data

theorem string_data_append (a b : String) : (a ++ b).data = a.data ++ b.data := by
  cases a; cases b; rfl

theorem splitFirstColon_append (a b : List Char) (ha : ':' ∉ a) :
    splitFirstColon (a ++ ':' :: b) = some (a, b) := by
  induction a with
  | nil => simp [splitFirstColon]
  | cons c cs ih =>
    have hc : ¬ c = ':' := by
      intro h; exact ha (by simp [h])
    have hcs : ':' ∉ cs := fun h => ha (by simp [h])
    simp [splitFirstColon, hc, ih hcs]

theorem parse_mk_server_id (t n : String) (ht : noColon t) :
    parse_server_id (mk_server_id t n) = some (t, n) := by
  unfold parse_server_id mk_server_id
  have hdata : (t ++ ":" ++ n).data = t.data ++ ':' :: n.data := by
    rw [string_data_append, string_data_append, List.append_assoc]
    rfl
  rw [hdata, splitFirstColon_append t.data n.data ht]

theorem mk_server_id_inj (t₁ n₁ t₂ n₂ : String)
    (h₁ : noColon t₁) (h₂ : noColon t₂)
    (h : mk_server_id t₁ n₁ = mk_server_id t₂ n₂) : t₁ = t₂ ∧ n₁ = n₂ := by
  have e₁ := parse_mk_server_id t₁ n₁ h₁
  have e₂ := parse_mk_server_id t₂ n₂ h₂
  rw [h, e₂] at e₁
  simp at e₁
  exact ⟨e₁.1.symm, e₁.2.symm⟩

theorem string_append_left_cancel {a b c : String} (h : a ++ b = a ++ c) : b = c := by
  cases a with
  | mk la =>
    cases b with
    | mk lb =>
      cases c with
      | mk lc =>
        have : la ++ lb = la ++ lc := congrArg String.data h
        have := List.append_cancel_left this
        simp [this]

/-! Orchestrator data model (orchestrator.py). -/

inductive ServerState
  | STOPPED
  | STARTING
  | RUNNING
  | CRASHED
  | STOPPING
deriving DecidableEq, Repr

structure Client where
  cid : Nat
  is_connected : Bool
  is_initialized : Bool
deriving DecidableEq, Repr

structure ServerConfig where
  name : String
  ctype : String
  command : String
  args : List String
  enabled : Bool
deriving DecidableEq, Repr

structure ManagedServer where
  server_id : String
  tenant_id : String
  config : ServerConfig
  state : ServerState
  client : Option Client
  started_at : Option Nat
  last_error : Option String
  restart_count : Nat
deriving DecidableEq, Repr

def ManagedServer.is_running (m : ManagedServer) : Bool :=
  m.state = ServerState.RUNNING

def ManagedServer.is_stopped (m : ManagedServer) : Bool :=
  m.state = ServerState.STOPPED ∨ m.state = ServerState.CRASHED

structure TenantConfig where
  tenant_id : String
  description : String
  servers : List (String × ServerConfig)
deriving DecidableEq, Repr

def TenantConfig.get_enabled_servers (tc : TenantConfig) : List ServerConfig :=
  (PyDict.values tc.servers).filter (fun s => s.enabled)

structure Registry where
  tenants : List (String × TenantConfig)
deriving DecidableEq, Repr

def Registry.get_tenant (r : Registry) (tenant_id : String) : Option TenantConfig :=
  PyDict.get r.tenants tenant_id

def Registry.get_server_config (r : Registry) (tenant_id server_name : String) :
    Option ServerConfig :=
  match r.get_tenant tenant_id with
  | some tc => PyDict.get tc.servers server_name
  | none => none

inductive Event
  | server_starting (server_id : String)
  | server_started (server_id : String)
  | server_failed (server_id : String) (error : String)
  | server_stopping (server_id : String)
  | server_stopped (server_id : String)
deriving DecidableEq, Repr

abbrev OrchState := List (String × ManagedServer)

/-- Outcome of the external connect-then-init sequence on the stdio client. -/
inductive ConnectOutcome
  | success (client : Client)
  | failure (error : String)

inductive DisconnectOutcome
  | success
  | failure (error : String)

inductive StartErr
  | invalidId
  | notInRegistry
  | connectFailed (error : String)
deriving DecidableEq, Repr

def freshServer (server_id tenant_id : String) (cfg : ServerConfig) : ManagedServer :=
  { server_id := server_id
    tenant_id := tenant_id
    config := cfg
    state := ServerState.STARTING
    client := none
    started_at := none
    last_error := none
    restart_count := 0 }

/-- Connect phase of `start_server`: the fresh STARTING record is stored and a
"server_starting" event emitted, then the connect outcome decides between the
RUNNING update and the CRASHED update with the error propagated. -/
def startConnect (s : OrchState) (server_id tenant_id : String) (cfg : ServerConfig)
    (outcome : ConnectOutcome) (now : Nat) :
    OrchState × List Event × Except StartErr ManagedServer :=
  let fresh := freshServer server_id tenant_id cfg
  let s₁ := PyDict.set s server_id fresh
  match outcome with
  | ConnectOutcome.success c =>
      let updated := { fresh with
        state := ServerState.RUNNING
        client := some c
        started_at := some now
        last_error := none }
      (PyDict.set s₁ server_id updated,
        [Event.server_starting server_id, Event.server_started server_id],
        Except.ok updated)
  | ConnectOutcome.failure e =>
      let crashed := { fresh with state := ServerState.CRASHED, last_error := some e }
      (PyDict.set s₁ server_id crashed,
        [Event.server_starting server_id, Event.server_failed server_id e],
        Except.error (StartErr.connectFailed e))

/-- Orchestrator.start_server. Parses the id, looks the config up in the
registry, returns the existing record when already RUNNING, and otherwise
creates a fresh record and runs the connect sequence. -/
def start_server (reg : Registry) (s : OrchState) (server_id : String)
    (outcome : ConnectOutcome) (now : Nat) :
    OrchState × List Event × Except StartErr ManagedServer :=
  match parse_server_id server_id with
  | none => (s, [], Except.error StartErr.invalidId)
  | some (tenant_id, server_name) =>
    match reg.get_server_config tenant_id server_name with
    | none => (s, [], Except.error StartErr.notInRegistry)
    | some cfg =>
      match PyDict.get s server_id with
      | some existing =>
          if existing.is_running then (s, [], Except.ok existing)
          else startConnect s server_id tenant_id cfg outcome now
      | none => startConnect s server_id tenant_id cfg outcome now

/-- Orchestrator.stop_server. No-op on unmanaged or already stopped/crashed
ids; otherwise STOPPING, disconnect, and STOPPED on success or CRASHED with
the error recorded on a disconnect failure (the client reference survives a
failed disconnect because the assignment after the await is skipped). -/
def stop_server (s : OrchState) (server_id : String) (disc : DisconnectOutcome) :
    OrchState × List Event :=
  match PyDict.get s server_id with
  | none => (s, [])
  | some m =>
    if m.is_stopped then (s, [])
    else
      match m.client with
      | some _ =>
        match disc with
        | DisconnectOutcome.success =>
            (PyDict.set s server_id { m with
                client := none, state := ServerState.STOPPED, started_at := none },
              [Event.server_stopping server_id, Event.server_stopped server_id])
        | DisconnectOutcome.failure e =>
            (PyDict.set s server_id { m with
                state := ServerState.CRASHED, last_error := some e },
              [Event.server_stopping server_id])
      | none =>
          (PyDict.set s server_id { m with
              client := none, state := ServerState.STOPPED, started_at := none },
            [Event.server_stopping server_id, Event.server_stopped server_id])

/-- Orchestrator._handle_server_failure: marks the record CRASHED, records the
error, emits "server_failed"; never touches restart_count (the reconnection
logic is commented out in the source). -/
def handle_server_failure (s : OrchState) (server_id error : String) :
    OrchState × List Event :=
  match PyDict.get s server_id with
  | none => (s, [])
  | some m =>
      let m₁ := { m with state := ServerState.CRASHED, last_error := some error }
      (PyDict.set s server_id m₁, [Event.server_failed server_id error])

/-- Orchestrator.get_server_client: the client only when the record is RUNNING. -/
def get_server_client (s : OrchState) (server_id : String) : Option Client :=
  match PyDict.get s server_id with
  | some m => if m.is_running then m.client else none
  | none => none

structure ServerStatus where
  server_id : String
  tenant_id : String
  stateName : ServerState
  started_at : Option Nat
  last_error : Option String
  restart_count : Nat
deriving DecidableEq, Repr

/-- Orchestrator.get_server_status: read-only snapshot of a managed record. -/
def get_server_status (s : OrchState) (server_id : String) : Option ServerStatus :=
  match PyDict.get s server_id with
  | none => none
  | some m => some
      { server_id := server_id
        tenant_id := m.tenant_id
        stateName := m.state
        started_at := m.started_at
        last_error := m.last_error
        restart_count := m.restart_count }

/-- Loop body of Orchestrator.start_tenant_servers: starts each enabled
config independently, collecting successes and swallowing failures. -/
def startTenantList (reg : Registry) (s : OrchState) (tenant_id : String)
    (cfgs : List ServerConfig) (oracle : String → ConnectOutcome) (now : Nat) :
    OrchState × List Event × List ManagedServer :=
  match cfgs with
  | [] => (s, [], [])
  | cfg :: rest =>
      let sid := mk_server_id tenant_id cfg.name
      let r := start_server reg s sid (oracle sid) now
      let rec' := startTenantList reg r.1 tenant_id rest oracle now
      match r.2.2 with
      | Except.ok m => (rec'.1, r.2.1 ++ rec'.2.1, m :: rec'.2.2)
      | Except.error _ => (rec'.1, r.2.1 ++ rec'.2.1, rec'.2.2)

/-- Orchestrator.start_tenant_servers: ValueError when the tenant is unknown,
otherwise best-effort batch start of the enabled servers. -/
def orch_start_tenant_servers (reg : Registry) (s : OrchState) (tenant_id : String)
    (oracle : String → ConnectOutcome) (now : Nat) :
    OrchState × List Event × Except Unit (List ManagedServer) :=
  match reg.get_tenant tenant_id with
  | none => (s, [], Except.error ())
  | some tc =>
      let r := startTenantList reg s tenant_id tc.get_enabled_servers oracle now
      (r.1, r.2.1, Except.ok r.2.2)

def stopList (s : OrchState) (sids : List String)
    (disc : String → DisconnectOutcome) : OrchState × List Event :=
  match sids with
  | [] => (s, [])
  | sid :: rest =>
      let r := stop_server s sid (disc sid)
      let rec' := stopList r.1 rest disc
      (rec'.1, r.2 ++ rec'.2)

/-- Orchestrator.stop_tenant_servers: collects the tenant's RUNNING ids first,
then stops each. -/
def orch_stop_tenant_servers (s : OrchState) (tenant_id : String)
    (disc : String → DisconnectOutcome) : OrchState × List Event :=
  let sids := (s.filter (fun p => p.2.tenant_id = tenant_id ∧ p.2.is_running)).map Prod.fst
  stopList s sids disc

/-! Observer notification (Orchestrator._notify_observers). An observer is a
callable; the except block formats `observer.__name__`, so a failing observer
without that attribute raises AttributeError out of the notification loop. -/

structure Observer where
  hasName : Bool
  failsOn : Event → Bool

/-- Delivery loop: returns the indices (from `i`) of observers that were
invoked, and whether an AttributeError escaped the loop. -/
def notifyLoop (obs : List Observer) (ev : Event) (i : Nat) : List Nat × Bool :=
  match obs with
  | [] => ([], false)
  | o :: rest =>
      if o.failsOn ev then
        if o.hasName then
          let r := notifyLoop rest ev (i + 1)
          (i :: r.1, r.2)
        else ([i], true)
      else
        let r := notifyLoop rest ev (i + 1)
        (i :: r.1, r.2)

/-- Orchestrator._notify_observers: calls each observer in registration order;
a raising observer with a name is caught and logged, a raising observer
without one makes the logging line itself raise AttributeError. -/
def notify_observers (obs : List Observer) (ev : Event) : List Nat × Bool :=
  notifyLoop obs ev 0

/-! Dynamic tool router (router.py). The catalog `self.tools` is a dict keyed
by tool_id; lookups by prefixed name scan the values in insertion order. -/

structure ToolInfo where
  name : String
  description : String
  input_schema : String
deriving DecidableEq, Repr

structure ToolRegistration where
  tool_id : String
  server_id : String
  original_name : String
  prefixed_name : String
  description : String
  input_schema : String
  metadata : List (String × String)
deriving DecidableEq, Repr

abbrev RouterState := List (String × ToolRegistration)

/-- DynamicToolRouter._generate_prefixed_name: the part of the composite id
after the first colon, a dot, then the original tool name. `none` models the
ValueError the underlying parse raises on a colon-free id. -/
def generate_prefixed_name (server_id tool_name : String) : Option String :=
  match parse_server_id server_id with
  | some p => some (p.2 ++ "." ++ tool_name)
  | none => none

def generate_tool_id (server_id tool_name : String) : String :=
  server_id ++ ":" ++ tool_name

inductive RouterErr
  | serverNotAvailable (server_id : String)
  | routerError (error : String)
deriving DecidableEq, Repr

inductive ListToolsOutcome
  | ok (tools : List ToolInfo)
  | failure (error : String)

/-- Registration loop of discover_tools: each listed tool is keyed by its
tool_id and written into the catalog; a ValueError from the id parse is
caught by the surrounding except block (partial writes persist). -/
def discoverLoop (rtr : RouterState) (server_id : String) (tools : List ToolInfo) :
    RouterState × Except String (List ToolRegistration) :=
  match tools with
  | [] => (rtr, Except.ok [])
  | t :: rest =>
    match generate_prefixed_name server_id t.name with
    | none => (rtr, Except.error "invalid server id")
    | some pname =>
        let reg : ToolRegistration :=
          { tool_id := generate_tool_id server_id t.name
            server_id := server_id
            original_name := t.name
            prefixed_name := pname
            description := t.description
            input_schema := t.input_schema
            metadata := [] }
        let rtr₁ := PyDict.set rtr reg.tool_id reg
        match discoverLoop rtr₁ server_id rest with
        | (rtr₂, Except.ok regs) => (rtr₂, Except.ok (reg :: regs))
        | (rtr₂, Except.error e) => (rtr₂, Except.error e)

/-- DynamicToolRouter.discover_tools: requires a live (RUNNING) client that
reports itself initialized, lists the worker's tools and registers each one;
a listing failure or loop failure is wrapped as RouterError. -/
def discover_tools (orch : OrchState) (rtr : RouterState) (server_id : String)
    (listOutcome : ListToolsOutcome) :
    RouterState × Except RouterErr (List ToolRegistration) :=
  match get_server_client orch server_id with
  | none => (rtr, Except.error (RouterErr.serverNotAvailable server_id))
  | some client =>
    if client.is_initialized = false then
      (rtr, Except.error (RouterErr.serverNotAvailable server_id))
    else
      match listOutcome with
      | ListToolsOutcome.failure e => (rtr, Except.error (RouterErr.routerError e))
      | ListToolsOutcome.ok tools =>
          match discoverLoop rtr server_id tools with
          | (rtr₁, Except.ok regs) => (rtr₁, Except.ok regs)
          | (rtr₁, Except.error e) => (rtr₁, Except.error (RouterErr.routerError e))

/-- DynamicToolRouter.get_tool: first registration in insertion order whose
prefixed name matches. -/
def get_tool (rtr : RouterState) (tool_name : String) : Option ToolRegistration :=
  (PyDict.values rtr).find? (fun reg => reg.prefixed_name = tool_name)

def get_tools_by_server (rtr : RouterState) (server_id : String) :
    List ToolRegistration :=
  (PyDict.values rtr).filter (fun reg => reg.server_id = server_id)

/-- DynamicToolRouter.clear_tools: drops one server's registrations, or the
whole catalog when no server is given. -/
def clear_tools (rtr : RouterState) (server_id : Option String) : RouterState :=
  match server_id with
  | some sid => rtr.filter (fun p => ¬ p.2.server_id = sid)
  | none => []

abbrev ToolArgs := List (String × String)

/-- Outcome of the forwarded client.call_tool invocation. -/
inductive CallOutcome
  | ok (result : String)
  | toolCallError (error : String)
  | otherError (error : String)

inductive CallErr
  | toolNotFound (tool_name : String)
  | serverNotAvailable (server_id : String)
  | toolCallError (error : String)
  | routerError (error : String)
deriving DecidableEq, Repr

/-- DynamicToolRouter.call_tool: catalog scan by prefixed name, live-handle
check, then forwarding; MCPToolCallError re-raised, anything else wrapped. -/
def call_tool (orch : OrchState) (rtr : RouterState) (tool_name : String)
    (arguments : ToolArgs) (timeout : Option Nat) (outcome : CallOutcome) :
    Except CallErr String :=
  match (PyDict.values rtr).find? (fun reg => reg.prefixed_name = tool_name) with
  | none => Except.error (CallErr.toolNotFound tool_name)
  | some reg =>
    match get_server_client orch reg.server_id with
    | none => Except.error (CallErr.serverNotAvailable reg.server_id)
    | some _ =>
      match outcome with
      | CallOutcome.ok v => Except.ok v
      | CallOutcome.toolCallError e => Except.error (CallErr.toolCallError e)
      | CallOutcome.otherError e => Except.error (CallErr.routerError e)

/-! Multitenant manager (multitenant.py). -/

structure TenantContext where
  tenant_id : String
  config : TenantConfig
  servers : List (String × ManagedServer)
  tools : List String
  created_at : Nat
  last_activity : Nat
deriving DecidableEq, Repr

def TenantContext.get_active_servers (ctx : TenantContext) : List ManagedServer :=
  (PyDict.values ctx.servers).filter (fun m => m.is_running)

def TenantContext.is_active (ctx : TenantContext) : Bool :=
  ctx.get_active_servers.length > 0

structure MTState where
  tenants : List (String × TenantContext)
  quotas : List (String × List (String × Nat))
  orch : OrchState
  rtr : RouterState
deriving Repr

def default_quotas : List (String × Nat) :=
  [("max_servers", 10), ("max_tools_per_server", 100), ("max_concurrent_requests", 50)]

/-- MultitenantManager.get_quota: per-tenant override when present, else the
global default; `none` models the float infinity fallback for an unknown
quota kind. -/
def get_quota (ms : MTState) (tenant_id quota_type : String) : Option Nat :=
  match PyDict.get ms.quotas tenant_id with
  | some q =>
      match PyDict.get q quota_type with
      | some l => some l
      | none => PyDict.get default_quotas quota_type
  | none => PyDict.get default_quotas quota_type

def geLimit (current : Nat) (limit : Option Nat) : Bool :=
  match limit with
  | some l => current ≥ l
  | none => false

def gtLimit (current : Nat) (limit : Option Nat) : Bool :=
  match limit with
  | some l => current > l
  | none => false

inductive QuotaErr
  | exceeded (tenant_id : String) (quota_type : String)
deriving DecidableEq, Repr

def checkQuotaTools (rtr : RouterState) (tenant_id : String)
    (servers : List (String × ManagedServer)) (limit : Option Nat) :
    Except QuotaErr Unit :=
  match servers with
  | [] => Except.ok ()
  | (sid, _) :: rest =>
      if gtLimit (get_tools_by_server rtr sid).length limit then
        Except.error (QuotaErr.exceeded tenant_id "max_tools_per_server")
      else checkQuotaTools rtr tenant_id rest limit

/-- MultitenantManager.check_quota: immediately True when the tenant has no
context; for max_servers compares the tracked count against the effective
limit, for max_tools_per_server scans the tracked servers. -/
def check_quota (ms : MTState) (tenant_id quota_type : String) :
    Except QuotaErr Unit :=
  match PyDict.get ms.tenants tenant_id with
  | none => Except.ok ()
  | some ctx =>
      let limit := get_quota ms tenant_id quota_type
      if quota_type = "max_servers" then
        if geLimit ctx.servers.length limit then
          Except.error (QuotaErr.exceeded tenant_id "max_servers")
        else Except.ok ()
      else if quota_type = "max_tools_per_server" then
        checkQuotaTools ms.rtr tenant_id ctx.servers limit
      else Except.ok ()

inductive TenantErr
  | notFound (tenant_id : String)
deriving DecidableEq, Repr

/-- MultitenantManager.get_or_create_tenant: refresh the activity timestamp of
an existing context, otherwise validate against the registry and create a
fresh empty context. -/
def get_or_create_tenant (reg : Registry) (ms : MTState) (tenant_id : String)
    (now : Nat) : MTState × Except TenantErr TenantContext :=
  match PyDict.get ms.tenants tenant_id with
  | some ctx =>
      let ctx' := { ctx with last_activity := now }
      ({ ms with tenants := PyDict.set ms.tenants tenant_id ctx' }, Except.ok ctx')
  | none =>
    match reg.get_tenant tenant_id with
    | none => (ms, Except.error (TenantErr.notFound tenant_id))
    | some cfg =>
        let ctx : TenantContext :=
          { tenant_id := tenant_id
            config := cfg
            servers := []
            tools := []
            created_at := now
            last_activity := now }
        ({ ms with tenants := PyDict.set ms.tenants tenant_id ctx }, Except.ok ctx)

def addServers (d : List (String × ManagedServer)) (ms : List ManagedServer) :
    List (String × ManagedServer) :=
  match ms with
  | [] => d
  | m :: rest => addServers (PyDict.set d m.server_id m) rest

/-- Discovery pass of MultitenantManager.start_tenant_servers: per-server
discovery with failures caught and logged. -/
def discoverStartedLoop (rtr : RouterState) (orch : OrchState)
    (started : List ManagedServer) (listOracle : String → ListToolsOutcome) :
    RouterState :=
  match started with
  | [] => rtr
  | m :: rest =>
      let r := discover_tools orch rtr m.server_id (listOracle m.server_id)
      discoverStartedLoop r.1 orch rest listOracle

inductive MTErr
  | tenantNotFound (tenant_id : String)
  | quotaExceeded (tenant_id : String) (quota_type : String)
  | valueError
deriving DecidableEq, Repr

/-- MultitenantManager.start_tenant_servers: context resolution, max_servers
quota check, batch start through the orchestrator, context/server recording,
per-server discovery, and recomputation of the tenant's tool-name list. -/
def mt_start_tenant_servers (reg : Registry) (ms : MTState) (tenant_id : String)
    (connectOracle : String → ConnectOutcome)
    (listOracle : String → ListToolsOutcome) (now : Nat) :
    MTState × List Event × Except MTErr (List ManagedServer) :=
  match get_or_create_tenant reg ms tenant_id now with
  | (ms₁, Except.error _) => (ms₁, [], Except.error (MTErr.tenantNotFound tenant_id))
  | (ms₁, Except.ok ctx) =>
    match check_quota ms₁ tenant_id "max_servers" with
    | Except.error (QuotaErr.exceeded t q) => (ms₁, [], Except.error (MTErr.quotaExceeded t q))
    | Except.ok _ =>
      match orch_start_tenant_servers reg ms₁.orch tenant_id connectOracle now with
      | (orch₁, evs, Except.error _) =>
          ({ ms₁ with orch := orch₁ }, evs, Except.error MTErr.valueError)
      | (orch₁, evs, Except.ok started) =>
          let ctxServers := addServers ctx.servers started
          let rtr₁ := discoverStartedLoop ms₁.rtr orch₁ started listOracle
          let toolsList := started.flatMap
            (fun m => (get_tools_by_server rtr₁ m.server_id).map
              (fun reg' => reg'.prefixed_name))
          let ctx' := { ctx with
            servers := ctxServers, tools := toolsList, last_activity := now }
          ({ ms₁ with
              orch := orch₁
              rtr := rtr₁
              tenants := PyDict.set ms₁.tenants tenant_id ctx' },
            evs, Except.ok started)

def clearServerList (rtr : RouterState) (sids : List String) : RouterState :=
  match sids with
  | [] => rtr
  | sid :: rest => clearServerList (clear_tools rtr (some sid)) rest

/-- MultitenantManager.stop_tenant_servers: stop through the orchestrator,
clear the router catalog for each tracked server, empty the context's worker
and tool collections, refresh activity. -/
def mt_stop_tenant_servers (ms : MTState) (tenant_id : String)
    (disc : String → DisconnectOutcome) (now : Nat) : MTState × List Event :=
  let r := orch_stop_tenant_servers ms.orch tenant_id disc
  match PyDict.get ms.tenants tenant_id with
  | none => ({ ms with orch := r.1 }, r.2)
  | some ctx =>
      let rtr₁ := clearServerList ms.rtr (PyDict.keys ctx.servers)
      let ctx' := { ctx with servers := [], tools := [], last_activity := now }
      ({ ms with
          orch := r.1
          rtr := rtr₁
          tenants := PyDict.set ms.tenants tenant_id ctx' }, r.2)

/-- Idle-eligibility test of cleanup_inactive_tenants for one context. -/
def cleanupEligible (ctx : TenantContext) (idle_timeout now : Nat) : Bool :=
  (now - ctx.last_activity > idle_timeout) && !ctx.is_active

/-- MultitenantManager.cleanup_inactive_tenants. The loop iterates
`self.tenants.items()` and executes `del self.tenants[tenant_id]` inside the
loop body, so when some context is eligible the first eligible one is stopped
and deleted and the very next iterator step raises RuntimeError (dictionary
changed size during iteration); only when no context is eligible does the
function return its (empty) list of cleaned tenant ids. -/
def cleanup_inactive_tenants (ms : MTState) (idle_timeout now : Nat)
    (disc : String → DisconnectOutcome) :
    MTState × List Event × Except Unit (List String) :=
  match ms.tenants.find? (fun p => cleanupEligible p.2 idle_timeout now) with
  | none => (ms, [], Except.ok [])
  | some p =>
      let r := mt_stop_tenant_servers ms p.1 disc now
      ({ r.1 with tenants := PyDict.erase r.1.tenants p.1 }, r.2, Except.error ())

/-! Reachable orchestrator states: the empty table, plus every state produced
by the lifecycle operations, their await-point intermediates (the STARTING
record stored before connect resolves, the STOPPING record stored before
disconnect resolves), the health-loop failure handler, and the batch ops. -/

inductive OrchReachable (reg : Registry) : OrchState → Prop
  | init : OrchReachable reg []
  | stepStart (s : OrchState) (sid : String) (o : ConnectOutcome) (now : Nat) :
      OrchReachable reg s → OrchReachable reg (start_server reg s sid o now).1
  | stepStartPending (s : OrchState) (sid tid sname : String) (cfg : ServerConfig) :
      OrchReachable reg s →
      parse_server_id sid = some (tid, sname) →
      reg.get_server_config tid sname = some cfg →
      OrchReachable reg (PyDict.set s sid (freshServer sid tid cfg))
  | stepStop (s : OrchState) (sid : String) (d : DisconnectOutcome) :
      OrchReachable reg s → OrchReachable reg (stop_server s sid d).1
  | stepStopPending (s : OrchState) (sid : String) (m : ManagedServer) :
      OrchReachable reg s → PyDict.get s sid = some m →
      OrchReachable reg (PyDict.set s sid { m with state := ServerState.STOPPING })
  | stepFailure (s : OrchState) (sid e : String) :
      OrchReachable reg s → OrchReachable reg (handle_server_failure s sid e).1
  | stepStartTenant (s : OrchState) (tid : String)
      (oracle : String → ConnectOutcome) (now : Nat) :
      OrchReachable reg s →
      OrchReachable reg (orch_start_tenant_servers reg s tid oracle now).1
  | stepStopTenant (s : OrchState) (tid : String)
      (disc : String → DisconnectOutcome) :
      OrchReachable reg s → OrchReachable reg (orch_stop_tenant_servers s tid disc).1

/-- Record invariant: every stored record remembers its own key, keeps the
restart counter at zero, carries a client whenever RUNNING, and its key
parses to a tenant/name pair that the registry still resolves. -/
def GoodRec (reg : Registry) (sid : String) (m : ManagedServer) : Prop :=
  m.server_id = sid ∧
  m.restart_count = 0 ∧
  (m.state = ServerState.RUNNING → m.client.isSome = true) ∧
  ∃ tid sname cfg, parse_server_id sid = some (tid, sname) ∧
    reg.get_server_config tid sname = some cfg

def OrchInv (reg : Registry) (s : OrchState) : Prop :=
  ∀ sid m, PyDict.get s sid = some m → GoodRec reg sid m

theorem PyDict.get_set_cases {α : Type} (d : List (String × α)) (k : String) (v : α)
    (k' : String) (w : α) (h : PyDict.get (PyDict.set d k v) k' = some w) :
    (k' = k ∧ w = v) ∨ (k' ≠ k ∧ PyDict.get d k' = some w) := by
  by_cases hk : k' = k
  · subst hk
    rw [PyDict.get_set_self] at h
    exact Or.inl ⟨rfl, (Option.some_inj.mp h).symm⟩
  · rw [PyDict.get_set_ne _ _ _ _ hk] at h
    exact Or.inr ⟨hk, h⟩

theorem orchInv_set {reg : Registry} {s : OrchState} {sid : String} {m : ManagedServer}
    (h : OrchInv reg s) (hm : GoodRec reg sid m) : OrchInv reg (PyDict.set s sid m) := by
  intro k w hw
  rcases PyDict.get_set_cases _ _ _ _ _ hw with ⟨hk, hv⟩ | ⟨_, hw'⟩
  · subst hk; subst hv; exact hm
  · exact h _ _ hw'

theorem good_fresh {reg : Registry} {sid tid sname : String} {cfg : ServerConfig}
    (hp : parse_server_id sid = some (tid, sname))
    (hc : reg.get_server_config tid sname = some cfg) :
    GoodRec reg sid (freshServer sid tid cfg) := by
  refine ⟨rfl, rfl, ?_, tid, sname, cfg, hp, hc⟩
  intro h
  simp [freshServer] at h

theorem inv_startConnect {reg : Registry} {s : OrchState} {sid tid sname : String}
    {cfg : ServerConfig} (h : OrchInv reg s)
    (hp : parse_server_id sid = some (tid, sname))
    (hc : reg.get_server_config tid sname = some cfg)
    (o : ConnectOutcome) (now : Nat) :
    OrchInv reg (startConnect s sid tid cfg o now).1 := by
  unfold startConnect
  cases o with
  | success c =>
    apply orchInv_set (orchInv_set h (good_fresh hp hc))
    exact ⟨rfl, rfl, fun _ => rfl, tid, sname, cfg, hp, hc⟩
  | failure e =>
    apply orchInv_set (orchInv_set h (good_fresh hp hc))
    refine ⟨rfl, rfl, ?_, tid, sname, cfg, hp, hc⟩
    intro hr
    simp [freshServer] at hr

theorem inv_start {reg : Registry} {s : OrchState} (h : OrchInv reg s)
    (sid : String) (o : ConnectOutcome) (now : Nat) :
    OrchInv reg (start_server reg s sid o now).1 := by
  unfold start_server
  split
  · exact h
  · rename_i tid sname hp
    split
    · exact h
    · rename_i cfg hc
      split
      · rename_i ex hex
        split
        · exact h
        · exact inv_startConnect h hp hc o now
      · exact inv_startConnect h hp hc o now

theorem inv_stop {s : OrchState} {reg : Registry} (h : OrchInv reg s)
    (sid : String) (d : DisconnectOutcome) : OrchInv reg (stop_server s sid d).1 := by
  unfold stop_server
  split
  · exact h
  · rename_i m hm
    split
    · exact h
    · obtain ⟨hid, hrc, _, hex⟩ := h sid m hm
      split
      · split
        · apply orchInv_set h
          refine ⟨hid, hrc, ?_, hex⟩
          intro hr
          simp at hr
        · apply orchInv_set h
          refine ⟨hid, hrc, ?_, hex⟩
          intro hr
          simp at hr
      · apply orchInv_set h
        refine ⟨hid, hrc, ?_, hex⟩
        intro hr
        simp at hr

theorem inv_failure {s : OrchState} {reg : Registry} (h : OrchInv reg s)
    (sid e : String) : OrchInv reg (handle_server_failure s sid e).1 := by
  unfold handle_server_failure
  split
  · exact h
  · rename_i m hm
    obtain ⟨hid, hrc, _, hex⟩ := h sid m hm
    apply orchInv_set h
    refine ⟨hid, hrc, ?_, hex⟩
    intro hr
    simp at hr

theorem inv_startTenantList {reg : Registry} (tid : String)
    (oracle : String → ConnectOutcome) (now : Nat) :
    ∀ (cfgs : List ServerConfig) (s : OrchState), OrchInv reg s →
      OrchInv reg (startTenantList reg s tid cfgs oracle now).1 := by
  intro cfgs
  induction cfgs with
  | nil => intro s h; exact h
  | cons cfg rest ih =>
    intro s h
    unfold startTenantList
    have h₁ := inv_start h (mk_server_id tid cfg.name)
      (oracle (mk_server_id tid cfg.name)) now
    dsimp only
    split <;> exact ih _ h₁

theorem inv_startTenant {reg : Registry} {s : OrchState} (h : OrchInv reg s)
    (tid : String) (oracle : String → ConnectOutcome) (now : Nat) :
    OrchInv reg (orch_start_tenant_servers reg s tid oracle now).1 := by
  unfold orch_start_tenant_servers
  split
  · exact h
  · exact inv_startTenantList tid oracle now _ s h

theorem inv_stopList {reg : Registry} (disc : String → DisconnectOutcome) :
    ∀ (sids : List String) (s : OrchState), OrchInv reg s →
      OrchInv reg (stopList s sids disc).1 := by
  intro sids
  induction sids with
  | nil => intro s h; exact h
  | cons sid rest ih =>
    intro s h
    unfold stopList
    exact ih _ (inv_stop h sid (disc sid))

theorem inv_stopTenant {reg : Registry} {s : OrchState} (h : OrchInv reg s)
    (tid : String) (disc : String → DisconnectOutcome) :
    OrchInv reg (orch_stop_tenant_servers s tid disc).1 := by
  unfold orch_stop_tenant_servers
  exact inv_stopList disc _ s h

/-- The record invariant holds in every reachable orchestrator state. -/
theorem orchInv_reachable {reg : Registry} {s : OrchState}
    (h : OrchReachable reg s) : OrchInv reg s := by
  induction h with
  | init => intro sid m hm; simp [PyDict.get] at hm
  | stepStart s sid o now _ ih => exact inv_start ih sid o now
  | stepStartPending s sid tid sname cfg _ hp hc ih =>
      exact orchInv_set ih (good_fresh hp hc)
  | stepStop s sid d _ ih => exact inv_stop ih sid d
  | stepStopPending s sid m _ hm ih =>
      obtain ⟨hid, hrc, _, hex⟩ := ih sid m hm
      apply orchInv_set ih
      refine ⟨hid, hrc, ?_, hex⟩
      intro hr
      simp at hr
  | stepFailure s sid e _ ih => exact inv_failure ih sid e
  | stepStartTenant s tid oracle now _ ih => exact inv_startTenant ih tid oracle now
  | stepStopTenant s tid disc _ ih => exact inv_stopTenant ih tid disc

instance : Inhabited ServerState := ⟨ServerState.STOPPED⟩

instance : Inhabited ServerConfig := ⟨⟨"", "", "", [], true⟩⟩

instance : Inhabited ManagedServer :=
  ⟨⟨"", "", default, default, none, none, none, 0⟩⟩

instance : Inhabited ServerStatus := ⟨⟨"", "", default, none, none, 0⟩⟩

/-- Registry used by concrete witness states: one tenant `t` with a single
enabled server `echo`. -/
def wReg : Registry :=
  ⟨[("t", ⟨"t", "", [("echo", ⟨"echo", "tool", "cmd", [], true⟩)]⟩)]⟩

def wClient : Client := ⟨0, true, true⟩

/-- Concrete reachable orchestrator state: `t:echo` started successfully. -/
def wOrch : OrchState :=
  (start_server wReg [] "t:echo" (ConnectOutcome.success wClient) 5).1

theorem wOrch_reachable : OrchReachable wReg wOrch :=
  OrchReachable.stepStart [] "t:echo" (ConnectOutcome.success wClient) 5
    OrchReachable.init

/-- The RUNNING record that `wOrch` stores for `t:echo`. -/
def wRec : ManagedServer :=
  { server_id := "t:echo"
    tenant_id := "t"
    config := ⟨"echo", "tool", "cmd", [], true⟩
    state := ServerState.RUNNING
    client := some wClient
    started_at := some 5
    last_error := none
    restart_count := 0 }

theorem wOrch_get : PyDict.get wOrch "t:echo" = some wRec := by decide

/-- C2: in every reachable engine state, get_server_client returns a handle
exactly when the worker's record is RUNNING; for an unmanaged worker or one
in any non-RUNNING state it returns nothing. -/
theorem get_server_client_only_running (reg : Registry) (s : OrchState)
    (h : OrchReachable reg s) (sid : String) :
    ((get_server_client s sid).isSome = true ↔
      ∃ m, PyDict.get s sid = some m ∧ m.state = ServerState.RUNNING) ∧
    (∀ m, PyDict.get s sid = some m → m.state ≠ ServerState.RUNNING →
      get_server_client s sid = none) := by
  have inv := orchInv_reachable h
  constructor
  · unfold get_server_client
    cases hg : PyDict.get s sid with
    | none => simp
    | some m =>
      by_cases hr : m.state = ServerState.RUNNING
      · have hb : m.is_running = true := by simp [ManagedServer.is_running, hr]
        obtain ⟨_, _, hcl, _⟩ := inv sid m hg
        simp [hb, hr, hcl hr]
      · have hb : m.is_running = false := by
          simp [ManagedServer.is_running, hr]
        simp [hb, hr]
  · intro m hg hr
    unfold get_server_client
    rw [hg]
    have hb : m.is_running = false := by
      simp [ManagedServer.is_running, hr]
    simp [hb]

theorem get_server_client_only_running_witness :
    (get_server_client wOrch "t:echo").isSome = true :=
  (get_server_client_only_running wReg wOrch wOrch_reachable "t:echo").1.mpr
    ⟨wRec, wOrch_get, rfl⟩

/-- C6: starting an already-RUNNING worker returns the existing record with
the state unchanged, emits no event, and its result does not depend on the
connect outcome (no new connect or init happens). -/
theorem start_on_running_is_noop (reg : Registry) (s : OrchState)
    (h : OrchReachable reg s) (sid : String) (m : ManagedServer)
    (hm : PyDict.get s sid = some m) (hr : m.state = ServerState.RUNNING)
    (o : ConnectOutcome) (now : Nat) :
    start_server reg s sid o now = (s, [], Except.ok m) := by
  have inv := orchInv_reachable h
  obtain ⟨_, _, _, tid, sname, cfg, hp, hc⟩ := inv sid m hm
  have hb : m.is_running = true := by simp [ManagedServer.is_running, hr]
  unfold start_server
  simp [hp, hc, hm, hb]

theorem start_on_running_is_noop_witness :
    start_server wReg wOrch "t:echo" (ConnectOutcome.failure "boom") 9
      = (wOrch, [], Except.ok wRec) :=
  start_on_running_is_noop wReg wOrch wOrch_reachable "t:echo"
    wRec wOrch_get rfl (ConnectOutcome.failure "boom") 9

/-- C7: stopping an unmanaged worker id, or a worker whose record is STOPPED
or CRASHED, is a no-op: no exception is modelled, no event is emitted, and
the worker table is returned unchanged. -/
theorem stop_unmanaged_or_stopped_noop (s : OrchState) (sid : String)
    (d : DisconnectOutcome)
    (h : PyDict.get s sid = none ∨
      ∃ m, PyDict.get s sid = some m ∧ m.is_stopped = true) :
    stop_server s sid d = (s, []) := by
  unfold stop_server
  rcases h with h | ⟨m, hm, hs⟩
  · rw [h]
  · rw [hm]
    simp [hs]

def c7rec : ManagedServer :=
  { server_id := "t:a"
    tenant_id := "t"
    config := ⟨"a", "t", "c", [], true⟩
    state := ServerState.CRASHED
    client := none
    started_at := none
    last_error := some "boom"
    restart_count := 0 }

theorem stop_unmanaged_or_stopped_noop_witness :
    stop_server [("t:a", c7rec)] "t:a" DisconnectOutcome.success
      = ([("t:a", c7rec)], []) :=
  stop_unmanaged_or_stopped_noop _ _ _ (Or.inr ⟨c7rec, rfl, rfl⟩)

/-- C10: in every reachable engine state every status snapshot reports
restart_count 0: records are created with a zero counter, and no operation
(start, stop, failure handling) ever increments it. -/
theorem restart_count_always_zero (reg : Registry) (s : OrchState)
    (h : OrchReachable reg s) (sid : String) (st : ServerStatus)
    (hst : get_server_status s sid = some st) : st.restart_count = 0 := by
  have inv := orchInv_reachable h
  unfold get_server_status at hst
  split at hst
  · exact absurd hst (by simp)
  · rename_i m hm
    have hz := (inv sid m hm).2.1
    have := Option.some_inj.mp hst
    subst this
    exact hz

def wStatus : ServerStatus :=
  ⟨"t:echo", "t", ServerState.RUNNING, some 5, none, 0⟩

theorem restart_count_always_zero_witness : wStatus.restart_count = 0 :=
  restart_count_always_zero wReg wOrch wOrch_reachable "t:echo"
    wStatus (by decide)

theorem notifyLoop_all_named (ev : Event) :
    ∀ (obs : List Observer) (i : Nat),
      (∀ o ∈ obs, o.failsOn ev = true → o.hasName = true) →
      notifyLoop obs ev i = (List.range' i obs.length, false) := by
  intro obs
  induction obs with
  | nil => intro i _; simp [notifyLoop]
  | cons o rest ih =>
    intro i h
    have ho := h o (by simp)
    have hrest : ∀ o' ∈ rest, o'.failsOn ev = true → o'.hasName = true :=
      fun o' h' => h o' (by simp [h'])
    unfold notifyLoop
    by_cases hf : o.failsOn ev = true
    · simp [hf, ho hf, ih (i + 1) hrest, List.range'_succ]
    · simp [hf, ih (i + 1) hrest, List.range'_succ]

/-- C8 (amended): when every observer that raises on the event has a __name__
attribute, notification reaches every observer in registration order and no
exception escapes the loop. -/
theorem notify_isolated_when_named (obs : List Observer) (ev : Event)
    (h : ∀ o ∈ obs, o.failsOn ev = true → o.hasName = true) :
    notify_observers obs ev = (List.range obs.length, false) := by
  unfold notify_observers
  rw [notifyLoop_all_named ev obs 0 h, List.range_eq_range']

/-- Two observers: the first raises and (like a functools.partial object) has
no __name__ attribute, the second is well behaved. -/
def c8obs : List Observer :=
  [{ hasName := false, failsOn := fun _ => true },
   { hasName := true, failsOn := fun _ => false }]

/-- C8 counterexample: with a raising observer that lacks __name__, the
logging line in the except block raises AttributeError out of the
notification loop and the second observer never receives the event, contrary
to the claim that a failing listener of any callable kind is caught. -/
theorem notify_nameless_failure_escapes :
    notify_observers c8obs (Event.server_started "w") = ([0], true) ∧
    1 ∉ (notify_observers c8obs (Event.server_started "w")).1 := by
  constructor
  · rfl
  · decide

def c8wobs : List Observer :=
  [{ hasName := true, failsOn := fun _ => true },
   { hasName := true, failsOn := fun _ => false }]

theorem notify_isolated_when_named_witness :
    notify_observers c8wobs (Event.server_stopped "w") = (List.range 2, false) :=
  notify_isolated_when_named c8wobs (Event.server_stopped "w")
    (by
      intro o ho _
      simp [c8wobs] at ho
      rcases ho with rfl | rfl <;> rfl)

/-- C5: call_tool fails with ToolNotFound exactly when no catalog entry's
dotted name matches; with a match, a missing live handle gives
ServerNotAvailable, a ToolCallError from the forwarded call propagates
unchanged, and any other failure is wrapped as a RouterError. -/
theorem call_tool_error_taxonomy (orch : OrchState) (rtr : RouterState)
    (tool_name : String) (arguments : ToolArgs) (timeout : Option Nat)
    (outcome : CallOutcome) :
    ((call_tool orch rtr tool_name arguments timeout outcome
        = Except.error (CallErr.toolNotFound tool_name))
      ↔ ∀ reg ∈ PyDict.values rtr, reg.prefixed_name ≠ tool_name)
    ∧ ∀ reg,
      (PyDict.values rtr).find? (fun r => r.prefixed_name = tool_name) = some reg →
      ((get_server_client orch reg.server_id = none →
        call_tool orch rtr tool_name arguments timeout outcome
          = Except.error (CallErr.serverNotAvailable reg.server_id))
      ∧ ∀ c, get_server_client orch reg.server_id = some c →
        call_tool orch rtr tool_name arguments timeout outcome
          = match outcome with
            | CallOutcome.ok v => Except.ok v
            | CallOutcome.toolCallError e => Except.error (CallErr.toolCallError e)
            | CallOutcome.otherError e => Except.error (CallErr.routerError e)) := by
  constructor
  · cases hf : (PyDict.values rtr).find? (fun r => r.prefixed_name = tool_name) with
    | none =>
      have hc : call_tool orch rtr tool_name arguments timeout outcome
          = Except.error (CallErr.toolNotFound tool_name) := by
        unfold call_tool
        rw [hf]
      rw [hc]
      constructor
      · intro _ reg hreg hname
        have h2 := List.find?_eq_none.mp hf reg hreg
        simp [hname] at h2
      · intro _
        rfl
    | some reg =>
      have hmem := List.mem_of_find?_eq_some hf
      have hname : reg.prefixed_name = tool_name := by
        simpa using List.find?_some hf
      have hne : call_tool orch rtr tool_name arguments timeout outcome
          ≠ Except.error (CallErr.toolNotFound tool_name) := by
        unfold call_tool
        rw [hf]
        cases hg : get_server_client orch reg.server_id with
        | none => simp [hg]
        | some c => cases outcome <;> simp [hg]
      constructor
      · intro h
        exact absurd h hne
      · intro hall
        exact absurd hname (hall reg hmem)
  · intro reg h'
    have hname : reg.prefixed_name = tool_name := by
      simpa using List.find?_some h'
    constructor
    · intro hg
      unfold call_tool
      rw [h']
      simp only [hg]
    · intro c hg
      unfold call_tool
      rw [h']
      simp only [hg]

def c5reg : ToolRegistration :=
  { tool_id := "t:echo:add"
    server_id := "t:echo"
    original_name := "add"
    prefixed_name := "echo.add"
    description := ""
    input_schema := ""
    metadata := [] }

def c5rtr : RouterState := [("t:echo:add", c5reg)]

theorem call_tool_error_taxonomy_witness :
    call_tool wOrch c5rtr "echo.add" [] none (CallOutcome.ok "r") = Except.ok "r" :=
  ((call_tool_error_taxonomy wOrch c5rtr "echo.add" [] none (CallOutcome.ok "r")).2
    c5reg (by decide)).2 wClient (by decide)

/-- C3 (amended): check_quota for max_servers raises QuotaExceeded exactly
when a context exists for the tenant and its tracked worker count reaches the
effective limit (per-tenant override when set, global default 10 otherwise);
when no context exists it never raises, even with a zero limit. -/
theorem check_quota_max_servers_spec (ms : MTState) (tenant_id : String) :
    ((∃ e, check_quota ms tenant_id "max_servers" = Except.error e) ↔
      ∃ ctx l, PyDict.get ms.tenants tenant_id = some ctx ∧
        get_quota ms tenant_id "max_servers" = some l ∧ l ≤ ctx.servers.length)
    ∧ ∃ l, get_quota ms tenant_id "max_servers" = some l ∧
        (((PyDict.get ms.quotas tenant_id).bind
            (fun q => PyDict.get q "max_servers") = some l) ∨
          (((PyDict.get ms.quotas tenant_id).bind
            (fun q => PyDict.get q "max_servers") = none) ∧ l = 10)) := by
  obtain ⟨l, hl, hor⟩ : ∃ l, get_quota ms tenant_id "max_servers" = some l ∧
      (((PyDict.get ms.quotas tenant_id).bind
          (fun q => PyDict.get q "max_servers") = some l) ∨
        (((PyDict.get ms.quotas tenant_id).bind
          (fun q => PyDict.get q "max_servers") = none) ∧ l = 10)) := by
    unfold get_quota
    cases hq : PyDict.get ms.quotas tenant_id with
    | none =>
      refine ⟨10, ?_, Or.inr ⟨rfl, rfl⟩⟩
      simp [default_quotas, PyDict.get]
    | some q =>
      cases hqt : PyDict.get q "max_servers" with
      | none =>
        refine ⟨10, ?_, Or.inr ⟨by simp [hqt], rfl⟩⟩
        simp [hqt, default_quotas, PyDict.get]
      | some l₀ =>
        exact ⟨l₀, by simp [hqt], Or.inl (by simp [hqt])⟩
  refine ⟨?_, l, hl, hor⟩
  cases hctx : PyDict.get ms.tenants tenant_id with
  | none =>
    have hok : check_quota ms tenant_id "max_servers" = Except.ok () := by
      unfold check_quota
      rw [hctx]
    constructor
    · rintro ⟨e, he⟩
      rw [hok] at he
      cases he
    · rintro ⟨ctx, l', hc, _, _⟩
      cases hc
  | some ctx =>
    by_cases hle : l ≤ ctx.servers.length
    · have herr : check_quota ms tenant_id "max_servers"
          = Except.error (QuotaErr.exceeded tenant_id "max_servers") := by
        unfold check_quota
        rw [hctx]
        simp [hl, geLimit, hle]
      constructor
      · intro _
        exact ⟨ctx, l, rfl, hl, hle⟩
      · intro _
        exact ⟨_, herr⟩
    · have hok : check_quota ms tenant_id "max_servers" = Except.ok () := by
        unfold check_quota
        rw [hctx]
        simp [hl, geLimit, hle]
      constructor
      · rintro ⟨e, he⟩
        rw [hok] at he
        cases he
      · rintro ⟨ctx', l', hc', hl', hle'⟩
        obtain rfl := (Option.some_inj.mp hc').symm
        rw [hl] at hl'
        obtain rfl := Option.some_inj.mp hl'
        exact absurd hle' hle

theorem check_quota_max_servers_spec_witness :
    ∃ l, get_quota ⟨[], [], [], []⟩ "t" "max_servers" = some l ∧
      (((PyDict.get (MTState.quotas ⟨[], [], [], []⟩) "t").bind
          (fun q => PyDict.get q "max_servers") = some l) ∨
        (((PyDict.get (MTState.quotas ⟨[], [], [], []⟩) "t").bind
          (fun q => PyDict.get q "max_servers") = none) ∧ l = 10)) :=
  (check_quota_max_servers_spec ⟨[], [], [], []⟩ "t").2

/-- State for the C3 counterexample: a per-tenant max_servers override of 0
for tenant t0 which has no context (tracked count 0). -/
def c3ms : MTState := ⟨[], [("t0", [("max_servers", 0)])], [], []⟩

/-- C3 counterexample: the effective max_servers limit for t0 is 0 and its
tracked worker count is 0, so the claim demands QuotaExceeded (0 >= 0), but
check_quota returns normally because no context exists for t0. -/
theorem check_quota_no_context_cex :
    check_quota c3ms "t0" "max_servers" = Except.ok () ∧
    get_quota c3ms "t0" "max_servers" = some 0 ∧
    PyDict.get c3ms.tenants "t0" = none :=
  ⟨rfl, rfl, rfl⟩

/-- Tenant context for the C4 failing input: no workers, last activity at
time 0. -/
def c4ctx : TenantContext := ⟨"t1", ⟨"t1", "", []⟩, [], [], 0, 0⟩

def c4ms : MTState := ⟨[("t1", c4ctx)], [], [], []⟩

def discAll : String → DisconnectOutcome := fun _ => DisconnectOutcome.success

/-- C4: at time 4000 with threshold 3600, tenant t1 (zero active workers,
idle 4000s) is eligible, and cleanup_inactive_tenants raises RuntimeError
(dictionary changed size during iteration) after evicting it instead of
returning the claimed list of cleaned tenant ids. -/
theorem cleanup_crashes_on_eligible_tenant :
    (cleanup_inactive_tenants c4ms 3600 4000 discAll).2.2 = Except.error () ∧
    cleanupEligible c4ctx 3600 4000 = true :=
  ⟨rfl, rfl⟩

/-! Discovery lemmas for the dotted-name claim. -/

def GoodEntry (sid S nm : String) (reg : ToolRegistration) : Prop :=
  reg.server_id = sid ∧ reg.original_name = nm ∧
  reg.prefixed_name = S ++ "." ++ nm

theorem generate_prefixed_eq {sid tid S : String}
    (hp : parse_server_id sid = some (tid, S)) (nm : String) :
    generate_prefixed_name sid nm = some (S ++ "." ++ nm) := by
  unfold generate_prefixed_name
  rw [hp]

theorem generate_tool_id_inj (sid a b : String)
    (h : generate_tool_id sid a = generate_tool_id sid b) : a = b :=
  string_append_left_cancel h

theorem discoverLoop_never_errors {sid tid S : String}
    (hp : parse_server_id sid = some (tid, S)) :
    ∀ (tools : List ToolInfo) (rtr : RouterState),
      ∃ rtr' regs, discoverLoop rtr sid tools = (rtr', Except.ok regs) := by
  intro tools
  induction tools with
  | nil => intro rtr; exact ⟨rtr, [], rfl⟩
  | cons t rest ih =>
    intro rtr
    unfold discoverLoop
    rw [generate_prefixed_eq hp t.name]
    dsimp only
    obtain ⟨rtr', regs, hrec⟩ := ih _
    rw [hrec]
    exact ⟨rtr', _, rfl⟩

theorem discoverLoop_preserves {sid tid S : String}
    (hp : parse_server_id sid = some (tid, S)) :
    ∀ (tools : List ToolInfo) (rtr rtr' : RouterState)
      (regs : List ToolRegistration) (nm : String) (reg : ToolRegistration),
      discoverLoop rtr sid tools = (rtr', Except.ok regs) →
      PyDict.get rtr (generate_tool_id sid nm) = some reg →
      GoodEntry sid S nm reg →
      ∃ reg', PyDict.get rtr' (generate_tool_id sid nm) = some reg' ∧
        GoodEntry sid S nm reg' := by
  intro tools
  induction tools with
  | nil =>
    intro rtr rtr' regs nm reg hloop hget hgood
    unfold discoverLoop at hloop
    obtain ⟨rfl, -⟩ := Prod.mk.injEq .. ▸ hloop
    exact ⟨reg, hget, hgood⟩
  | cons t rest ih =>
    intro rtr rtr' regs nm reg hloop hget hgood
    unfold discoverLoop at hloop
    rw [generate_prefixed_eq hp t.name] at hloop
    dsimp only at hloop
    obtain ⟨rtr₂, regs₂, hrec⟩ := discoverLoop_never_errors hp rest
      (PyDict.set rtr (generate_tool_id sid t.name)
        { tool_id := generate_tool_id sid t.name
          server_id := sid
          original_name := t.name
          prefixed_name := S ++ "." ++ t.name
          description := t.description
          input_schema := t.input_schema
          metadata := [] })
    rw [hrec] at hloop
    obtain ⟨rfl, -⟩ := Prod.mk.injEq .. ▸ hloop
    by_cases hk : generate_tool_id sid t.name = generate_tool_id sid nm
    · have hnm : t.name = nm := generate_tool_id_inj sid t.name nm hk
      subst hnm
      refine ih _ _ _ t.name
        { tool_id := generate_tool_id sid t.name
          server_id := sid
          original_name := t.name
          prefixed_name := S ++ "." ++ t.name
          description := t.description
          input_schema := t.input_schema
          metadata := [] } hrec ?_ ⟨rfl, rfl, rfl⟩
      rw [← hk]
      exact PyDict.get_set_self ..
    · refine ih _ _ _ nm reg hrec ?_ hgood
      rw [PyDict.get_set_ne _ _ _ _ (fun h => hk h.symm)]
      exact hget

theorem discoverLoop_registers {sid tid S : String}
    (hp : parse_server_id sid = some (tid, S)) :
    ∀ (tools : List ToolInfo) (rtr rtr' : RouterState)
      (regs : List ToolRegistration),
      discoverLoop rtr sid tools = (rtr', Except.ok regs) →
      ∀ t ∈ tools, ∃ reg,
        PyDict.get rtr' (generate_tool_id sid t.name) = some reg ∧
        GoodEntry sid S t.name reg := by
  intro tools
  induction tools with
  | nil => intro rtr rtr' regs _ t ht; simp at ht
  | cons t₀ rest ih =>
    intro rtr rtr' regs hloop t ht
    unfold discoverLoop at hloop
    rw [generate_prefixed_eq hp t₀.name] at hloop
    dsimp only at hloop
    obtain ⟨rtr₂, regs₂, hrec⟩ := discoverLoop_never_errors hp rest
      (PyDict.set rtr (generate_tool_id sid t₀.name)
        { tool_id := generate_tool_id sid t₀.name
          server_id := sid
          original_name := t₀.name
          prefixed_name := S ++ "." ++ t₀.name
          description := t₀.description
          input_schema := t₀.input_schema
          metadata := [] })
    rw [hrec] at hloop
    obtain ⟨rfl, -⟩ := Prod.mk.injEq .. ▸ hloop
    rcases List.mem_cons.mp ht with rfl | hmem
    · exact discoverLoop_preserves hp rest _ _ _ t.name _ hrec
        (PyDict.get_set_self ..) ⟨rfl, rfl, rfl⟩
    · exact ih _ _ _ hrec t hmem

theorem find?_unique {α : Type} {l : List α} {p : α → Bool} {v : α}
    (hv : v ∈ l) (hpv : p v = true) (huniq : (l.filter p).length = 1) :
    l.find? p = some v := by
  have hsome : (l.find? p).isSome := List.find?_isSome.mpr ⟨v, hv, hpv⟩
  obtain ⟨w, hw⟩ := Option.isSome_iff_exists.mp hsome
  have hpw := List.find?_some hw
  have hwmem := List.mem_of_find?_eq_some hw
  have hvf : v ∈ l.filter p := List.mem_filter.mpr ⟨hv, hpv⟩
  have hwf : w ∈ l.filter p := List.mem_filter.mpr ⟨hwmem, hpw⟩
  obtain ⟨a, ha⟩ := List.length_eq_one.mp huniq
  rw [ha] at hvf hwf
  simp only [List.mem_singleton] at hvf hwf
  rw [hw, hwf, ← hvf]

/-- C1 (amended): after discover(workerId) the catalog holds an entry with
dotted name exactly S.O for every listed operation O; get_tool(S.O) returns
the first registered entry whose dotted name equals S.O (hence one whose
prefixed name is S.O), and when exactly one catalog entry carries that dotted
name the resolved entry's original name is O and its owning worker is the
discovered one (short name S). -/
theorem discover_registers_and_resolves (orch : OrchState) (rtr : RouterState)
    (sid tid S : String) (client : Client) (tools : List ToolInfo)
    (t : ToolInfo)
    (hp : parse_server_id sid = some (tid, S))
    (hcl : get_server_client orch sid = some client)
    (hinit : client.is_initialized = true)
    (ht : t ∈ tools) :
    ∃ rtr' regs,
      discover_tools orch rtr sid (ListToolsOutcome.ok tools)
        = (rtr', Except.ok regs) ∧
      (∃ reg ∈ PyDict.values rtr', reg.server_id = sid ∧
        reg.original_name = t.name ∧ reg.prefixed_name = S ++ "." ++ t.name) ∧
      (∀ reg', get_tool rtr' (S ++ "." ++ t.name) = some reg' →
        reg'.prefixed_name = S ++ "." ++ t.name) ∧
      (((PyDict.values rtr').filter
          (fun r => r.prefixed_name = S ++ "." ++ t.name)).length = 1 →
        ∃ reg', get_tool rtr' (S ++ "." ++ t.name) = some reg' ∧
          reg'.server_id = sid ∧ reg'.original_name = t.name) := by
  obtain ⟨rtr', regs, hloop⟩ := discoverLoop_never_errors hp tools rtr
  have hdisc : discover_tools orch rtr sid (ListToolsOutcome.ok tools)
      = (rtr', Except.ok regs) := by
    unfold discover_tools
    rw [hcl]
    simp only [hinit, Bool.true_eq_false, if_false, hloop]
  obtain ⟨reg, hregget, hgood⟩ :=
    discoverLoop_registers hp tools rtr rtr' regs hloop t ht
  have hregmem : reg ∈ PyDict.values rtr' := PyDict.mem_values_of_get hregget
  refine ⟨rtr', regs, hdisc,
    ⟨reg, hregmem, hgood.1, hgood.2.1, hgood.2.2⟩, ?_, ?_⟩
  · intro reg' hreg'
    unfold get_tool at hreg'
    simpa using List.find?_some hreg'
  · intro huniq
    have hfind : (PyDict.values rtr').find?
        (fun r => r.prefixed_name = S ++ "." ++ t.name) = some reg :=
      find?_unique hregmem (by simp [hgood.2.2]) huniq
    exact ⟨reg, hfind, hgood.1, hgood.2.1⟩

theorem discover_registers_and_resolves_witness :
    (get_tool
        (discover_tools wOrch [] "t:echo"
          (ListToolsOutcome.ok [⟨"add", "", ""⟩])).1
        ("echo" ++ "." ++ "add")).map ToolRegistration.original_name
      = some "add" := by
  obtain ⟨rtr', regs, hdisc, hexists, hpref, huniq⟩ :=
    discover_registers_and_resolves wOrch [] "t:echo" "t" "echo" wClient
      [⟨"add", "", ""⟩] ⟨"add", "", ""⟩ (by decide) (by decide) rfl
      (by simp)
  have hr : rtr' = (discover_tools wOrch [] "t:echo"
      (ListToolsOutcome.ok [⟨"add", "", ""⟩])).1 := by rw [hdisc]
  subst hr
  obtain ⟨reg', hget', hsid', horig'⟩ := huniq (by decide)
  dsimp only at hget' horig'
  have hstr : ("echo" ++ "." ++ "add" : String) = "echo.add" := by decide
  rw [hstr] at hget'
  rw [hstr]
  simp [hget', horig']

/-- Registry for the C1 counterexample: tenant t with two enabled workers
whose short names are `a` and `a.b`. -/
def c1Reg : Registry :=
  ⟨[("t", ⟨"t", "",
    [("a", ⟨"a", "svc", "cmd", [], true⟩),
     ("a.b", ⟨"a.b", "svc", "cmd", [], true⟩)]⟩)]⟩

def c1orchA : OrchState :=
  (start_server c1Reg [] "t:a" (ConnectOutcome.success wClient) 0).1

def c1orch : OrchState :=
  (start_server c1Reg c1orchA "t:a.b" (ConnectOutcome.success wClient) 0).1

def c1rtrA : RouterState :=
  (discover_tools c1orch [] "t:a" (ListToolsOutcome.ok [⟨"b.c", "", ""⟩])).1

def c1rtr : RouterState :=
  (discover_tools c1orch c1rtrA "t:a.b" (ListToolsOutcome.ok [⟨"c", "", ""⟩])).1

/-- C1 counterexample: worker t:a.b (short name `a.b`) exposes operation `c`,
and after its discovery the catalog does contain dotted name `a.b.c`; but
worker t:a exposing `b.c` produced the same dotted name first, so get_tool
returns a registration whose original name is `b.c` (not `c`) and whose
owning worker is t:a (short name `a`, not `a.b`), refuting the resolution
part of the claim. -/
theorem get_tool_ambiguous_dotted_name_cex :
    parse_server_id "t:a.b" = some ("t", "a.b") ∧
    ("a.b" ++ "." ++ "c" : String) = "a.b.c" ∧
    PyDict.get c1rtr "t:a.b:c"
      = some ⟨"t:a.b:c", "t:a.b", "c", "a.b.c", "", "", []⟩ ∧
    get_tool c1rtr "a.b.c"
      = some ⟨"t:a:b.c", "t:a", "b.c", "a.b.c", "", "", []⟩ := by
  decide

/-! Multitenant reachability: states produced from the empty manager (with
arbitrary quota settings) by sequences of start_tenant_servers and
stop_tenant_servers. -/

inductive MTReachable (reg : Registry) : MTState → Prop
  | init (quotas : List (String × List (String × Nat))) :
      MTReachable reg ⟨[], quotas, [], []⟩
  | stepStart (ms : MTState) (tenant_id : String)
      (co : String → ConnectOutcome) (lo : String → ListToolsOutcome)
      (now : Nat) :
      MTReachable reg ms →
      MTReachable reg (mt_start_tenant_servers reg ms tenant_id co lo now).1
  | stepStop (ms : MTState) (tenant_id : String)
      (disc : String → DisconnectOutcome) (now : Nat) :
      MTReachable reg ms →
      MTReachable reg (mt_stop_tenant_servers ms tenant_id disc now).1

/-- Per-context invariant: a context stored under key t carries tenant_id t
and only tracks workers whose composite id was generated as t:name. -/
def TenantsInv (d : List (String × TenantContext)) : Prop :=
  ∀ t ctx, PyDict.get d t = some ctx →
    ctx.tenant_id = t ∧
    ∀ sid ∈ PyDict.keys ctx.servers, ∃ n, sid = mk_server_id t n

def MTInv (reg : Registry) (ms : MTState) : Prop :=
  OrchInv reg ms.orch ∧ TenantsInv ms.tenants

theorem tenantsInv_set {d : List (String × TenantContext)} {tid : String}
    {ctx : TenantContext} (h : TenantsInv d) (h₁ : ctx.tenant_id = tid)
    (h₂ : ∀ sid ∈ PyDict.keys ctx.servers, ∃ n, sid = mk_server_id tid n) :
    TenantsInv (PyDict.set d tid ctx) := by
  intro t ctx' hget
  rcases PyDict.get_set_cases _ _ _ _ _ hget with ⟨rfl, rfl⟩ | ⟨_, hget'⟩
  · exact ⟨h₁, h₂⟩
  · exact h _ _ hget'

theorem start_server_ok_id {reg : Registry} {s : OrchState} {sid : String}
    {o : ConnectOutcome} {now : Nat} {m : ManagedServer} (h : OrchInv reg s)
    (hok : (start_server reg s sid o now).2.2 = Except.ok m) :
    m.server_id = sid := by
  unfold start_server at hok
  split at hok
  · simp at hok
  · rename_i tid sname hp
    split at hok
    · simp at hok
    · rename_i cfg hc
      split at hok
      · rename_i ex hex
        split at hok
        · simp at hok
          rw [← hok]
          exact (h sid ex hex).1
        · unfold startConnect at hok
          cases o with
          | success c =>
            simp at hok
            rw [← hok]
            rfl
          | failure e => simp at hok
      · unfold startConnect at hok
        cases o with
        | success c =>
          simp at hok
          rw [← hok]
          rfl
        | failure e => simp at hok

theorem startTenantList_ok_ids {reg : Registry} {tid : String}
    {oracle : String → ConnectOutcome} {now : Nat} :
    ∀ (cfgs : List ServerConfig) (s : OrchState), OrchInv reg s →
      ∀ m ∈ (startTenantList reg s tid cfgs oracle now).2.2,
        ∃ n, m.server_id = mk_server_id tid n := by
  intro cfgs
  induction cfgs with
  | nil => intro s _ m hm; simp [startTenantList] at hm
  | cons cfg rest ih =>
    intro s h m hm
    unfold startTenantList at hm
    dsimp only at hm
    split at hm
    · rename_i m₀ heq
      rcases List.mem_cons.mp hm with rfl | hmem
      · exact ⟨cfg.name, start_server_ok_id h heq⟩
      · exact ih _ (inv_start h _ _ _) m hmem
    · exact ih _ (inv_start h _ _ _) m hm

theorem orch_start_ok_ids {reg : Registry} {s : OrchState} {tid : String}
    {oracle : String → ConnectOutcome} {now : Nat}
    {started : List ManagedServer} (h : OrchInv reg s)
    (hok : (orch_start_tenant_servers reg s tid oracle now).2.2
      = Except.ok started) :
    ∀ m ∈ started, ∃ n, m.server_id = mk_server_id tid n := by
  unfold orch_start_tenant_servers at hok
  split at hok
  · simp at hok
  · rename_i tc htc
    dsimp only at hok
    simp only [Except.ok.injEq] at hok
    rw [← hok]
    exact startTenantList_ok_ids _ s h

theorem addServers_keys :
    ∀ (ms : List ManagedServer) (d : List (String × ManagedServer)) (k : String),
      k ∈ PyDict.keys (addServers d ms) →
      k ∈ PyDict.keys d ∨ ∃ m ∈ ms, k = m.server_id := by
  intro ms
  induction ms with
  | nil => intro d k hk; exact Or.inl hk
  | cons m rest ih =>
    intro d k hk
    unfold addServers at hk
    rcases ih _ k hk with h | ⟨m', hm', hk'⟩
    · rcases PyDict.keys_set_subset d m.server_id m k h with h' | h'
      · exact Or.inr ⟨m, by simp, h'⟩
      · exact Or.inl h'
    · exact Or.inr ⟨m', by simp [hm'], hk'⟩

theorem get_or_create_props {reg : Registry} {ms : MTState} {tid : String}
    {now : Nat} (h : TenantsInv ms.tenants) :
    TenantsInv (get_or_create_tenant reg ms tid now).1.tenants ∧
    (get_or_create_tenant reg ms tid now).1.orch = ms.orch ∧
    (get_or_create_tenant reg ms tid now).1.rtr = ms.rtr ∧
    ∀ ctx, (get_or_create_tenant reg ms tid now).2 = Except.ok ctx →
      ctx.tenant_id = tid ∧
      ∀ sid ∈ PyDict.keys ctx.servers, ∃ n, sid = mk_server_id tid n := by
  unfold get_or_create_tenant
  split
  · rename_i ctx hq
    obtain ⟨hcid, hckeys⟩ := h tid ctx hq
    dsimp only
    refine ⟨?_, rfl, rfl, ?_⟩
    · exact tenantsInv_set h hcid hckeys
    · intro ctx' hok
      simp only [Except.ok.injEq] at hok
      rw [← hok]
      exact ⟨hcid, hckeys⟩
  · rename_i hq
    split
    · exact ⟨h, rfl, rfl, by intro ctx hok; simp at hok⟩
    · rename_i cfg hreg
      dsimp only
      refine ⟨?_, rfl, rfl, ?_⟩
      · refine tenantsInv_set h rfl ?_
        intro sid hsid
        simp [PyDict.keys] at hsid
      · intro ctx' hok
        simp only [Except.ok.injEq] at hok
        rw [← hok]
        refine ⟨rfl, ?_⟩
        intro sid hsid
        simp [PyDict.keys] at hsid

theorem mtInv_start {reg : Registry} {ms : MTState} (h : MTInv reg ms)
    (tid : String) (co : String → ConnectOutcome)
    (lo : String → ListToolsOutcome) (now : Nat) :
    MTInv reg (mt_start_tenant_servers reg ms tid co lo now).1 := by
  obtain ⟨ho, ht⟩ := h
  obtain ⟨ht₁, horch₁, hrtr₁, hok₁⟩ :=
    @get_or_create_props reg ms tid now ht
  unfold mt_start_tenant_servers
  split
  · rename_i ms₁ e heq
    rw [heq] at ht₁ horch₁
    refine ⟨?_, ht₁⟩
    show OrchInv reg ms₁.orch
    rw [show ms₁.orch = ms.orch from horch₁]
    exact ho
  · rename_i ms₁ ctx heq
    rw [heq] at ht₁ horch₁
    obtain ⟨hcid, hckeys⟩ := hok₁ ctx (by rw [heq])
    have ho₁ : OrchInv reg ms₁.orch := by
      rw [show ms₁.orch = ms.orch from horch₁]
      exact ho
    dsimp only
    split
    · exact ⟨ho₁, ht₁⟩
    · split
      · rename_i orch₁ evs e heq₂
        have h1 : (orch_start_tenant_servers reg ms₁.orch tid co now).1 = orch₁ := by
          rw [heq₂]
        refine ⟨?_, ht₁⟩
        show OrchInv reg orch₁
        rw [← h1]
        exact inv_startTenant ho₁ tid co now
      · rename_i orch₁ evs started heq₂
        have h1 : (orch_start_tenant_servers reg ms₁.orch tid co now).1 = orch₁ := by
          rw [heq₂]
        have h2 : (orch_start_tenant_servers reg ms₁.orch tid co now).2.2
            = Except.ok started := by rw [heq₂]
        have hids := orch_start_ok_ids ho₁ h2
        refine ⟨?_, ?_⟩
        · show OrchInv reg orch₁
          rw [← h1]
          exact inv_startTenant ho₁ tid co now
        · show TenantsInv (PyDict.set ms₁.tenants tid _)
          refine tenantsInv_set ht₁ hcid ?_
          intro sid hsid
          rcases addServers_keys started ctx.servers sid hsid with h' | ⟨m, hm, rfl⟩
          · exact hckeys sid h'
          · exact hids m hm

theorem mtInv_stop {reg : Registry} {ms : MTState} (h : MTInv reg ms)
    (tid : String) (disc : String → DisconnectOutcome) (now : Nat) :
    MTInv reg (mt_stop_tenant_servers ms tid disc now).1 := by
  obtain ⟨ho, ht⟩ := h
  unfold mt_stop_tenant_servers
  dsimp only
  split
  · exact ⟨inv_stopTenant ho tid disc, ht⟩
  · rename_i ctx hq
    refine ⟨inv_stopTenant ho tid disc, ?_⟩
    refine tenantsInv_set ht (ht tid ctx hq).1 ?_
    intro sid hsid
    simp [PyDict.keys] at hsid

theorem mtInv_reachable {reg : Registry} {ms : MTState}
    (h : MTReachable reg ms) : MTInv reg ms := by
  induction h with
  | init quotas =>
    constructor
    · intro sid m hm
      simp [PyDict.get] at hm
    · intro t ctx hctx
      simp [PyDict.get] at hctx
  | stepStart ms tid co lo now _ ih => exact mtInv_start ih tid co lo now
  | stepStop ms tid disc now _ ih => exact mtInv_stop ih tid disc now

/-- C9 (amended): in every state reachable by start/stop tenant operations,
two distinct tenant ids with colon-free names own distinct contexts whose
tracked worker-id collections are disjoint. (The dotted tool-name collections
need not be disjoint: the public name omits the tenant id, see the
counterexample.) -/
theorem tenant_contexts_isolated (reg : Registry) (ms : MTState)
    (h : MTReachable reg ms) (t₁ t₂ : String) (ctx₁ ctx₂ : TenantContext)
    (hne : t₁ ≠ t₂) (hc₁ : noColon t₁) (hc₂ : noColon t₂)
    (h₁ : PyDict.get ms.tenants t₁ = some ctx₁)
    (h₂ : PyDict.get ms.tenants t₂ = some ctx₂) :
    ctx₁ ≠ ctx₂ ∧
    ∀ sid ∈ PyDict.keys ctx₁.servers, sid ∉ PyDict.keys ctx₂.servers := by
  have inv := mtInv_reachable h
  obtain ⟨hid₁, hk₁⟩ := inv.2 t₁ ctx₁ h₁
  obtain ⟨hid₂, hk₂⟩ := inv.2 t₂ ctx₂ h₂
  constructor
  · intro heq
    apply hne
    rw [← hid₁, ← hid₂, heq]
  · intro sid hs₁ hs₂
    obtain ⟨n₁, rfl⟩ := hk₁ sid hs₁
    obtain ⟨n₂, he⟩ := hk₂ _ hs₂
    exact hne (mk_server_id_inj t₁ n₁ t₂ n₂ hc₁ hc₂ he).1

/-- Registry for the C9 counterexample and witness: tenants t1 and t2 each
declare one enabled worker with the same short name echo. -/
def c9Reg : Registry :=
  ⟨[("t1", ⟨"t1", "", [("echo", ⟨"echo", "svc", "cmd", [], true⟩)]⟩),
    ("t2", ⟨"t2", "", [("echo", ⟨"echo", "svc", "cmd", [], true⟩)]⟩)]⟩

def c9co : String → ConnectOutcome := fun _ => ConnectOutcome.success wClient

def c9lo : String → ListToolsOutcome := fun _ => ListToolsOutcome.ok [⟨"add", "", ""⟩]

def c9ms1 : MTState :=
  (mt_start_tenant_servers c9Reg ⟨[], [], [], []⟩ "t1" c9co c9lo 0).1

def c9ms : MTState :=
  (mt_start_tenant_servers c9Reg c9ms1 "t2" c9co c9lo 0).1

theorem c9ms_reachable : MTReachable c9Reg c9ms :=
  MTReachable.stepStart c9ms1 "t2" c9co c9lo 0
    (MTReachable.stepStart ⟨[], [], [], []⟩ "t1" c9co c9lo 0
      (MTReachable.init []))

/-- C9 counterexample: after starting tenants t1 and t2 (each with worker
echo exposing add), both contexts carry the same public dotted tool name
echo.add, so the claimed disjointness of tool-name collections fails. -/
theorem tenant_tool_names_not_disjoint_cex :
    (PyDict.get c9ms.tenants "t1").map TenantContext.tools = some ["echo.add"] ∧
    (PyDict.get c9ms.tenants "t2").map TenantContext.tools = some ["echo.add"] ∧
    ("t1" : String) ≠ "t2" := by
  refine ⟨?_, ?_, by decide⟩ <;> decide

instance : Inhabited TenantContext := ⟨⟨"", ⟨"", "", []⟩, [], [], 0, 0⟩⟩

theorem tenant_contexts_isolated_witness :
    (PyDict.get c9ms.tenants "t1").get! ≠ (PyDict.get c9ms.tenants "t2").get! :=
  (tenant_contexts_isolated c9Reg c9ms c9ms_reachable "t1" "t2"
    ((PyDict.get c9ms.tenants "t1").get!) ((PyDict.get c9ms.tenants "t2").get!)
    (by decide) (by unfold noColon; decide) (by unfold noColon; decide)
    (by decide) (by decide)).1
